import Mathlib

/-!
Shallow embedding of `akbootimg.c` (Android boot image manipulation tool).

C `unsigned` (32-bit) arithmetic is modelled on `Nat` with explicit
reductions `% U32`; `size_t` (LP64 host) arithmetic with `% U64`.
Bytes are modelled as `Nat`, byte buffers and files as `List Nat`,
C strings (config lines, cmdline) as `List Char`.
-/

/-- 2^32, the modulus of C `unsigned` arithmetic. -/
def U32 : Nat := 4294967296

/-- 2^64, the modulus of C `size_t` (LP64) arithmetic. -/
def U64 : Nat := 18446744073709551616

/-- Modelled from the spec: the boot image format's literal magic tag
`"ANDROID!"` (`BOOT_MAGIC`, 8 bytes), defined in the repository's
`bootimg.h` which is not part of the provided sources. -/
def bootMagic : List Nat := [65, 78, 68, 82, 79, 73, 68, 33]

/-- Modelled from the spec: `sizeof(boot_img_hdr)` for the fixed-layout
header record described in spec section 6 (8-byte magic, eight 32-bit
fields, 8 reserved bytes, 16-byte name, 512-byte cmdline buffer,
32-byte id trailer), defined in the repository's `bootimg.h` which is
not part of the provided sources: 8 + 32 + 8 + 16 + 512 + 32 = 608. -/
def hdrSize : Nat := 608

/-- Modelled from the spec: the header record of `bootimg.h`
(`boot_img_hdr`).  Numeric fields are 32-bit unsigned; `magic` is the
8-byte tag; `unused`, `name` and `id` are the reserved fields carried
through unmodified; `cmdline` holds the C-string content of the
fixed-capacity (512 byte) command line buffer. -/
structure BootImgHdr where
  magic : List Nat
  kernel_size : Nat
  kernel_addr : Nat
  ramdisk_size : Nat
  ramdisk_addr : Nat
  second_size : Nat
  second_addr : Nat
  tags_addr : Nat
  page_size : Nat
  unused : List Nat
  name : List Nat
  cmdline : List Char
  id : List Nat
deriving Repr, DecidableEq

/-- The C expression `(s + page_size - 1) / page_size` in `unsigned`
arithmetic (page count of a segment), as written in
`check_boot_img_header`, `update_images`, `write_bootimg` and
`extract_ramdisk`. -/
def cdiv (s p : Nat) : Nat := ((s + p + U32 - 1) % U32) / p

/-- `total_size = (1+n+m+o)*page_size` in `unsigned` arithmetic, the
total layout size computed in `check_boot_img_header` (lines 226-230)
and `update_images` (lines 528-531). -/
def total_size_c (ps ks rs ss : Nat) : Nat :=
  ((1 + cdiv ks ps + cdiv rs ps + cdiv ss ps) * ps) % U32

/-- `roffset = (1+n)*page_size` computed in `update_images` (line 431);
the same expression is used by `write_bootimg` for the ramdisk seek. -/
def ramdisk_offset_upd (ps ks : Nat) : Nat := ((1 + cdiv ks ps) * ps) % U32

/-- `soffset = (1+n+m)*page_size` computed in `update_images`
(line 432); the same expression is used by `write_bootimg` for the
second-stage seek. -/
def second_offset_upd (ps ks rs : Nat) : Nat :=
  ((1 + cdiv ks ps + cdiv rs ps) * ps) % U32

/-- `roffset = (1+n)*psize` with `n = (ksize + psize - 1)/psize`
computed in `extract_ramdisk` (lines 664-665). -/
def ramdisk_offset_ext (ps ks : Nat) : Nat := ((1 + cdiv ks ps) * ps) % U32

/-- `soffset = (1+n)*psize` with `n = (rsize + ksize + psize - 1)/psize`
computed in `extract_second` (lines 702-703), all in `unsigned`
arithmetic. -/
def second_offset_ext (ps ks rs : Nat) : Nat :=
  ((1 + ((rs + ks + ps + U32 - 1) % U32) / ps) * ps) % U32

/-- `check_boot_img_header` (lines 199-238): returns `true` when the
header is rejected (C returns 1), `false` when accepted (C returns 0).
`size` is `img->size`, the available image size.  The null-ramdisk
branch only prints a diagnostic and does not return. -/
def check_boot_img_header (h : BootImgHdr) (size : Nat) : Bool :=
  if h.magic ≠ bootMagic then true
  else if h.kernel_size = 0 then true
  else if h.page_size = 0 then true
  else if total_size_c h.page_size h.kernel_size h.ramdisk_size h.second_size > size then true
  else false

/-! ### Config codec (`update_header_entry`, `write_bootimg_config`) -/

/-- The characters skipped by `strspn(p, " \t")`. -/
def isSpTab (c : Char) : Bool := c == ' ' || c == '\t'

/-- The characters that terminate the key token:
`strcspn(p, " =\t")`. -/
def isDelim (c : Char) : Bool := c == ' ' || c == '=' || c == '\t'

/-- `p += strspn(p, " \t")`. -/
def dropSpan (l : List Char) : List Char := l.dropWhile isSpTab

/-- `strchr(cmd, '\n')` followed by truncation at the newline. -/
def stripAtNewline (l : List Char) : List Char := l.takeWhile (fun c => !(c == '\n'))

/-- The whitespace characters skipped by `strtoul` (C `isspace`). -/
def isCWhite (c : Char) : Bool :=
  c == ' ' || c == '\t' || c == '\n' || c == '\r' || c == '\x0b' || c == '\x0c'

/-- Numeric value of a digit character as used by `strtoul`
(`0`-`9`, `a`-`z`, `A`-`Z`); 255 for non-digit characters. -/
def digitVal (c : Char) : Nat :=
  if 48 ≤ c.toNat ∧ c.toNat ≤ 57 then c.toNat - 48
  else if 97 ≤ c.toNat ∧ c.toNat ≤ 122 then c.toNat - 87
  else if 65 ≤ c.toNat ∧ c.toNat ≤ 90 then c.toNat - 55
  else 255

/-- Whether `c` is a digit of base `b`. -/
def isBaseDigit (b : Nat) (c : Char) : Bool := digitVal c < b

/-- Greedy digit accumulation of `strtoul` in base `b` (stops at the
first non-digit). -/
def readDigits (b : Nat) (l : List Char) : Nat :=
  (l.takeWhile (isBaseDigit b)).foldl (fun a c => a * b + digitVal c) 0

/-- `strtoul(value, NULL, 0)`: skip whitespace, optional sign, base
auto-detection (`0x`/`0X` hex, leading `0` octal, otherwise decimal);
an unparsable string yields 0.  The result is an `unsigned long`
(64-bit) value. -/
def strtoul0 (l : List Char) : Nat :=
  let l1 := l.dropWhile isCWhite
  let signed : Bool × List Char :=
    match l1 with
    | '-' :: r => (true, r)
    | '+' :: r => (false, r)
    | _ => (false, l1)
  let v : Nat :=
    match signed.2 with
    | '0' :: 'x' :: r => readDigits 16 r
    | '0' :: 'X' :: r => readDigits 16 r
    | '0' :: r => readDigits 8 r
    | r => readDigits 10 r
  if signed.1 then (U64 - v % U64) % U64 else v % U64

def keyCmdline : List Char := "cmdline".toList
def keyBootsize : List Char := "bootsize".toList
def keyPagesize : List Char := "pagesize".toList
def keyKerneladdr : List Char := "kerneladdr".toList
def keyRamdiskaddr : List Char := "ramdiskaddr".toList
def keySecondaddr : List Char := "secondaddr".toList
def keyTagsaddr : List Char := "tagsaddr".toList

/-- The line after newline truncation and leading-blank skipping
(lines 316-322 of `update_header_entry`). -/
def entryLine (cmd : List Char) : List Char := dropSpan (stripAtNewline cmd)

/-- The tokenisation part of `update_header_entry` (lines 316-334):
truncate at the first newline, skip leading blanks, read the key token
up to the first blank or `=`, skip blanks, require `=`
(`if (*p++ != '=') goto err`), skip blanks; `none` when the `=` is
missing. -/
def splitEntry (cmd : List Char) : Option (List Char × List Char) :=
  match dropSpan ((entryLine cmd).dropWhile (fun c => !(isDelim c))) with
  | c :: r3 =>
    if c = '=' then some ((entryLine cmd).takeWhile (fun c => !(isDelim c)), dropSpan r3)
    else none
  | [] => none

instance exceptDecEq {ε α : Type} [DecidableEq ε] [DecidableEq α] : DecidableEq (Except ε α) := fun x y =>
  match x, y with
  | .error a, .error b =>
    decidable_of_iff (a = b) ⟨fun h => h ▸ rfl, fun h => by cases h; rfl⟩
  | .ok a, .ok b =>
    decidable_of_iff (a = b) ⟨fun h => h ▸ rfl, fun h => by cases h; rfl⟩
  | .error _, .ok _ => isFalse fun h => nomatch h
  | .ok _, .error _ => isFalse fun h => nomatch h

/-- The errors `update_header_entry` can abort with. -/
inductive ConfigErr where
  | badEntry
  | cmdlineTooLong
  | blkdevResize
deriving Repr, DecidableEq

/-- The parts of `t_akbootimg` that config entries touch. -/
structure ImgState where
  size : Nat
  is_blkdev : Bool
  header : BootImgHdr
deriving Repr, DecidableEq

/-- The key dispatch of `update_header_entry` (lines 336-367), exactly
as in the source: `cmdline` by exact `strcmp`, the others by `strncmp`
over the length of the literal key, i.e. a prefix comparison of the
extracted token.  `valuenum` is truncated to `unsigned` on
assignment. -/
def applyEntry (img : ImgState) (token value : List Char) : Except ConfigErr ImgState :=
  let valuenum := strtoul0 value % U32
  if token = keyCmdline then
    if value.length ≥ 512 then .error .cmdlineTooLong
    else .ok { img with header := { img.header with cmdline := value } }
  else if token.take 8 = keyBootsize then
    if img.is_blkdev ∧ img.size ≠ valuenum then .error .blkdevResize
    else .ok { img with size := valuenum }
  else if token.take 8 = keyPagesize then
    .ok { img with header := { img.header with page_size := valuenum } }
  else if token.take 10 = keyKerneladdr then
    .ok { img with header := { img.header with kernel_addr := valuenum } }
  else if token.take 11 = keyRamdiskaddr then
    .ok { img with header := { img.header with ramdisk_addr := valuenum } }
  else if token.take 10 = keySecondaddr then
    .ok { img with header := { img.header with second_addr := valuenum } }
  else if token.take 8 = keyTagsaddr then
    .ok { img with header := { img.header with tags_addr := valuenum } }
  else .error .badEntry

/-- `update_header_entry` (lines 309-371): tokenise, then dispatch on
the key. -/
def update_header_entry (img : ImgState) (cmd : List Char) : Except ConfigErr ImgState :=
  match splitEntry cmd with
  | none => .error .badEntry
  | some (token, value) => applyEntry img token value

/-- The key tokens `update_header_entry` accepts (used to state the
corrected version of the unknown-key claim): exact `cmdline`, or a
token whose first `strlen(key)` characters match one of the other
keys. -/
def acceptsKey (t : List Char) : Bool :=
  t = keyCmdline || t.take 8 = keyBootsize || t.take 8 = keyPagesize ||
  t.take 10 = keyKerneladdr || t.take 11 = keyRamdiskaddr ||
  t.take 10 = keySecondaddr || t.take 8 = keyTagsaddr

/-- The `getline` loops of `update_header` (lines 386-390, 407-411):
apply config entries line by line, aborting on the first error. -/
def apply_lines (img : ImgState) : List (List Char) → Except ConfigErr ImgState
  | [] => .ok img
  | l :: ls =>
    match update_header_entry img l with
    | .error e => .error e
    | .ok img1 => apply_lines img1 ls

/-- Hex digit character, as produced by `printf("%x")` (lowercase). -/
def nibbleChar (d : Nat) : Char :=
  if d < 10 then Char.ofNat (48 + d) else Char.ofNat (87 + d)

/-- Little-endian base-16 digits of `v`, with explicit fuel so that the
definition reduces by computation. -/
def hexLE (fuel v : Nat) : List Nat :=
  match fuel with
  | 0 => []
  | f + 1 => if v = 0 then [] else v % 16 :: hexLE f (v / 16)

/-- The digit string `printf("%x", v)` produces. -/
def hexChars (v : Nat) : List Char :=
  if v = 0 then ['0'] else (hexLE v v).reverse.map nibbleChar

/-- One numeric config line `"<key> = 0x<hex>\n"` as emitted by
`write_bootimg_config`. -/
def numLine (key : List Char) (v : Nat) : List Char :=
  key ++ (' ' :: '=' :: ' ' :: ('0' :: 'x' :: hexChars v)) ++ ['\n']

/-- The cmdline config line `"cmdline = <cmdline>\n"` as emitted by
`write_bootimg_config`. -/
def cmdlineLine (c : List Char) : List Char :=
  keyCmdline ++ (' ' :: '=' :: ' ' :: c) ++ ['\n']

/-- `write_bootimg_config` (lines 607-626): the lines written to the
config file, in emission order (the `bootsize` line is commented out in
the source and therefore absent). -/
def write_bootimg_config (h : BootImgHdr) : List (List Char) :=
  [ numLine keyPagesize h.page_size,
    numLine keyKerneladdr h.kernel_addr,
    numLine keyRamdiskaddr h.ramdisk_addr,
    numLine keySecondaddr h.second_addr,
    numLine keyTagsaddr h.tags_addr,
    cmdlineLine h.cmdline ]

/-! ### Segment resolution and image assembly
(`update_images`, `write_bootimg`)

The open image stream is modelled as a byte list `file`; replacement
files given with `-k`/`-r`/`-s` are modelled as `Option (List Nat)`
holding their full contents (`none` = option not given).  `fread(buf,
len, 1, stream)` returns 1 item exactly when `len ≠ 0` and `len` bytes
are available from the current position; otherwise it returns 0 and the
program aborts (`abort_perror`/`abort_printf`), modelled as an error
result.  An error anywhere in `update_images` aborts the process before
`write_bootimg` runs, so the destination file keeps its previous
contents. -/

/-- Abort causes in the update/create pipeline. -/
inductive RunErr where
  | nullPageSize
  | readFail
  | tooBig
deriving Repr, DecidableEq

/-- `t_akbootimg` after `update_images`: resolved size, (possibly
updated) header and the three segment buffers (`NULL` = `none`). -/
structure ImgFull where
  size : Nat
  header : BootImgHdr
  kernel : Option (List Nat)
  ramdisk : Option (List Nat)
  second : Option (List Nat)
deriving Repr, DecidableEq

/-- The `-k` branch of `update_images` (lines 434-454): load the whole
replacement file, `ksize = st.st_size` truncated to `unsigned`; the
`fread` returns 0 items when `ksize` is 0 and the program aborts.
Updates `header.kernel_size` and sets the kernel buffer. -/
def load_kernel (kOpt : Option (List Nat)) (h : BootImgHdr) :
    Except RunErr (BootImgHdr × Option (List Nat)) :=
  match kOpt with
  | none => .ok (h, none)
  | some kb =>
    let ks := kb.length % U32
    if ks = 0 then .error .readFail
    else .ok ({ h with kernel_size := ks }, some (kb.take ks))

/-- The ramdisk branches of `update_images` (lines 456-490): a given
`-r` file replaces the ramdisk (updating `header.ramdisk_size`);
otherwise, when the kernel buffer was just loaded, the original ramdisk
bytes are carried over from the source image at `roffset` for `rsize`
bytes (both computed from the pre-replacement header); otherwise no
buffer is materialised. -/
def load_ramdisk (file : List Nat) (rOpt : Option (List Nat)) (kbuf : Option (List Nat))
    (roffset rsize : Nat) (h : BootImgHdr) :
    Except RunErr (BootImgHdr × Option (List Nat)) :=
  match rOpt with
  | some rb =>
    let rs := rb.length % U32
    if rs = 0 then .error .readFail
    else .ok ({ h with ramdisk_size := rs }, some (rb.take rs))
  | none =>
    match kbuf with
    | some _ =>
      if rsize ≠ 0 ∧ roffset + rsize ≤ file.length
      then .ok (h, some ((file.drop roffset).take rsize))
      else .error .readFail
    | none => .ok (h, none)

/-- The second-stage branches of `update_images` (lines 492-526):
analogous to the ramdisk, with the carry-over additionally gated on
`img->header.second_size` being non-zero. -/
def load_second (file : List Nat) (sOpt : Option (List Nat)) (rbuf : Option (List Nat))
    (soffset ssize : Nat) (h : BootImgHdr) :
    Except RunErr (BootImgHdr × Option (List Nat)) :=
  match sOpt with
  | some sb =>
    let ss := sb.length % U32
    if ss = 0 then .error .readFail
    else .ok ({ h with second_size := ss }, some (sb.take ss))
  | none =>
    match rbuf with
    | some _ =>
      if h.second_size ≠ 0 then
        if ssize ≠ 0 ∧ soffset + ssize ≤ file.length
        then .ok (h, some ((file.drop soffset).take ssize))
        else .error .readFail
      else .ok (h, none)
    | none => .ok (h, none)

/-- The final size resolution of `update_images` (lines 533-536): an
unset (0) target size adopts the computed total; a set target size must
not be exceeded. -/
def resolve_size (size total : Nat) : Except RunErr Nat :=
  if size = 0 then .ok total
  else if total > size then .error .tooBig
  else .ok size

/-- `update_images` (lines 417-537): `size` is `img->size` (file length
or block-device capacity, possibly overridden by a `bootsize` config
entry), `h` the header after config edits, `kOpt`/`rOpt`/`sOpt` the
contents of the `-k`/`-r`/`-s` replacement files.  The carry-over
offsets are computed from the pre-replacement header (lines 427-432);
the total is recomputed from the updated header (lines 528-531). -/
def update_images (file : List Nat) (size : Nat) (h : BootImgHdr)
    (kOpt rOpt sOpt : Option (List Nat)) : Except RunErr ImgFull :=
  if h.page_size = 0 then .error .nullPageSize
  else
    match load_kernel kOpt h with
    | .error e => .error e
    | .ok (h1, kbuf) =>
      match load_ramdisk file rOpt kbuf (ramdisk_offset_upd h.page_size h.kernel_size)
          h.ramdisk_size h1 with
      | .error e => .error e
      | .ok (h2, rbuf) =>
        match load_second file sOpt rbuf (second_offset_upd h.page_size h.kernel_size h.ramdisk_size)
            h.second_size h2 with
        | .error e => .error e
        | .ok (h3, sbuf) =>
          match resolve_size size
              (total_size_c h3.page_size h3.kernel_size h3.ramdisk_size h3.second_size) with
          | .error e => .error e
          | .ok sz => .ok ⟨sz, h3, kbuf, rbuf, sbuf⟩

/-- The header padding length `psize - sizeof(img->header)` of
`write_bootimg` (line 562): the `unsigned` page size is promoted to
`size_t` for the subtraction with `sizeof`, so the difference wraps
modulo 2^64 when `psize < sizeof(boot_img_hdr)`. -/
def padHeaderLen (psize : Nat) : Nat := (psize + U64 - hdrSize) % U64

/-- A buffer viewed as exactly `w` bytes: `fwrite(buf, w, 1, ...)`
writes `w` bytes from `buf` (zero-filled beyond the buffer, standing
for the unspecified bytes a C overread would produce; in every path
exercised here the buffer holds exactly `w` bytes). -/
def fit (l : List Nat) (w : Nat) : List Nat :=
  l.take w ++ List.replicate (w - l.length) 0

/-- Little-endian 32-bit encoding of a header field. -/
def le32 (v : Nat) : List Nat :=
  [v % 256, v / 256 % 256, v / 65536 % 256, v / 16777216 % 256]

/-- Modelled from the spec: the fixed-size binary encoding of
`boot_img_hdr` written by `fwrite(&img->header, sizeof(img->header),
1, ...)`, following the field order of spec section 6 (the struct
layout lives in `bootimg.h`, which is not part of the provided
sources).  Always exactly `hdrSize` (608) bytes. -/
def encode_header (h : BootImgHdr) : List Nat :=
  fit h.magic 8 ++ le32 h.kernel_size ++ le32 h.kernel_addr ++
  le32 h.ramdisk_size ++ le32 h.ramdisk_addr ++ le32 h.second_size ++
  le32 h.second_addr ++ le32 h.tags_addr ++ le32 h.page_size ++
  fit h.unused 8 ++ fit h.name 16 ++ fit (h.cmdline.map Char.toNat) 512 ++ fit h.id 32

/-- A stream opened for positioned writes: file contents and current
position. -/
structure FS where
  file : List Nat
  pos : Nat

/-- Overwrite `data` into `f` at byte offset `off`, zero-extending the
file first if `off` lies beyond its end. -/
def writeAt (f : List Nat) (off : Nat) (data : List Nat) : List Nat :=
  (f.take off ++ List.replicate (off - f.length) 0) ++ data ++ f.drop (off + data.length)

/-- `fwrite` at the current position. -/
def wr (s : FS) (data : List Nat) : FS := ⟨writeAt s.file s.pos data, s.pos + data.length⟩

/-- `fseek(stream, off, SEEK_SET)`. -/
def sk (s : FS) (off : Nat) : FS := ⟨s.file, off⟩

/-- `ftruncate(fd, sz)`: truncate or zero-extend to exactly `sz`
bytes. -/
def setLength (f : List Nat) (sz : Nat) : List Nat :=
  f.take sz ++ List.replicate (sz - f.length) 0

/-- The bytes of `f` at `[off, off+len)`. -/
def readSpan (f : List Nat) (off len : Nat) : List Nat := (f.drop off).take len

/-- `write_bootimg` (lines 539-605), acting on the destination file
(`file`, the previous contents of the image): header record plus
padding to one page, then each materialised segment with padding at its
page-aligned offset (the seeks use the same `unsigned` expressions as
the source), finally `ftruncate` to `img->size`.  The second-stage
block is guarded only by `header.second_size` (a `NULL` `img->second`
with a non-zero size would be undefined behaviour in C; it is modelled
as writing zeros). -/
def write_bootimg (file : List Nat) (img : ImgFull) : List Nat :=
  let psize := img.header.page_size
  let n := cdiv img.header.kernel_size psize
  let m := cdiv img.header.ramdisk_size psize
  let s1 := wr ⟨file, 0⟩ (encode_header img.header)
  let s2 := wr s1 (List.replicate (padHeaderLen psize) 0)
  let s3 :=
    match img.kernel with
    | some k =>
      wr (wr s2 (fit k img.header.kernel_size))
        (List.replicate (psize - img.header.kernel_size % psize) 0)
    | none => s2
  let s4 :=
    match img.ramdisk with
    | some r =>
      wr (wr (sk s3 (((1 + n) * psize) % U32)) (fit r img.header.ramdisk_size))
        (List.replicate (psize - img.header.ramdisk_size % psize) 0)
    | none => s3
  let s5 :=
    if img.header.second_size ≠ 0 then
      wr (wr (sk s4 (((1 + n + m) * psize) % U32)) (fit (img.second.getD []) img.header.second_size))
        (List.replicate (psize - img.header.second_size % psize) 0)
    else s4
  setLength s5.file img.size

/-- The update path of `main` after `read_header`/`update_header`
(lines 768-774): resolve segments, then rewrite the image in place.  An
error leaves the destination `file` unchanged (the process aborts
before `write_bootimg`). -/
def update_run (file : List Nat) (size : Nat) (h : BootImgHdr)
    (kOpt rOpt sOpt : Option (List Nat)) : Except RunErr (List Nat) :=
  match update_images file size h kOpt rOpt sOpt with
  | .error e => .error e
  | .ok img => .ok (write_bootimg file img)

/-! ### Helper lemmas: file/span algebra -/

theorem fit_length (l : List Nat) (w : Nat) : (fit l w).length = w := by
  simp [fit]
  omega

theorem fit_self (l : List Nat) (w : Nat) (h : l.length = w) : fit l w = l := by
  subst h
  simp [fit]

theorem setLength_length (f : List Nat) (sz : Nat) : (setLength f sz).length = sz := by
  simp [setLength]
  omega

theorem writeAt_prefix_length (f : List Nat) (off : Nat) :
    (f.take off ++ List.replicate (off - f.length) 0).length = off := by
  simp
  omega

theorem length_writeAt (f : List Nat) (off : Nat) (d : List Nat) :
    (writeAt f off d).length = max (off + d.length) f.length := by
  simp [writeAt]
  omega

theorem readSpan_append_left (P rest : List Nat) (off len : Nat) (h : off + len ≤ P.length) :
    readSpan (P ++ rest) off len = readSpan P off len := by
  unfold readSpan
  rw [List.drop_append_eq_append_drop, List.take_append_eq_append_take]
  have h1 : (P.drop off).length = P.length - off := List.length_drop off P
  have h2 : len - (P.drop off).length = 0 := by omega
  rw [h2]
  simp

theorem readSpan_take (f : List Nat) (sz off len : Nat) (h : off + len ≤ sz) :
    readSpan (f.take sz) off len = readSpan f off len := by
  unfold readSpan
  rw [List.drop_take, List.take_take]
  congr 1
  omega

theorem readSpan_writeAt_self (f : List Nat) (off : Nat) (d : List Nat) :
    readSpan (writeAt f off d) off d.length = d := by
  unfold readSpan writeAt
  rw [List.append_assoc, List.drop_append_eq_append_drop, writeAt_prefix_length,
    List.drop_eq_nil_of_le (by rw [writeAt_prefix_length]), Nat.sub_self, List.drop_zero,
    List.nil_append, List.take_append_eq_append_take, List.take_length, Nat.sub_self,
    List.take_zero, List.append_nil]

theorem readSpan_writeAt_before (f : List Nat) (off2 : Nat) (d : List Nat) (off len : Nat)
    (h1 : off + len ≤ off2) (h2 : off + len ≤ f.length) :
    readSpan (writeAt f off2 d) off len = readSpan f off len := by
  unfold writeAt
  rw [List.append_assoc, readSpan_append_left _ _ _ _ (by rw [writeAt_prefix_length]; exact h1),
    readSpan_append_left _ _ _ _ (by simp; omega), readSpan_take _ _ _ _ h1]

theorem readSpan_setLength (f : List Nat) (sz off len : Nat)
    (h1 : off + len ≤ sz) (h2 : off + len ≤ f.length) :
    readSpan (setLength f sz) off len = readSpan f off len := by
  unfold setLength
  rw [readSpan_append_left _ _ _ _ (by simp; omega), readSpan_take _ _ _ _ h1]

theorem readSpan_length (f : List Nat) (off len : Nat) (h : off + len ≤ f.length) :
    (readSpan f off len).length = len := by
  simp [readSpan]
  omega

/-! ### Helper lemmas: 32-bit layout arithmetic in the wrap-free regime -/

theorem cdiv_eq (s p : Nat) (hp : 0 < p) (h : s + p ≤ U32) :
    cdiv s p = (s + p - 1) / p := by
  have h1 : s + p + U32 - 1 = (s + p - 1) + U32 := by omega
  have h2 : (s + p + U32 - 1) % U32 = s + p - 1 := by
    rw [h1, Nat.add_mod_right]
    exact Nat.mod_eq_of_lt (by omega)
  unfold cdiv
  rw [h2]

theorem le_cdiv_mul (s p : Nat) (hp : 0 < p) (h : s + p ≤ U32) : s ≤ cdiv s p * p := by
  rw [cdiv_eq s p hp h]
  have hdm := Nat.div_add_mod' (s + p - 1) p
  have hml : (s + p - 1) % p < p := Nat.mod_lt _ hp
  omega

theorem total_size_c_eq (ps ks rs ss : Nat) (hp : 0 < ps)
    (hk : ks + ps ≤ U32) (hr : rs + ps ≤ U32) (hs : ss + ps ≤ U32)
    (ht : (1 + (ks + ps - 1) / ps + (rs + ps - 1) / ps + (ss + ps - 1) / ps) * ps < U32) :
    total_size_c ps ks rs ss
      = (1 + (ks + ps - 1) / ps + (rs + ps - 1) / ps + (ss + ps - 1) / ps) * ps := by
  unfold total_size_c
  rw [cdiv_eq ks ps hp hk, cdiv_eq rs ps hp hr, cdiv_eq ss ps hp hs, Nat.mod_eq_of_lt ht]

/-! ### Helper lemmas: config line parsing -/

theorem takeWhile_append_all (p : Char → Bool) (l1 l2 : List Char) (h : ∀ c ∈ l1, p c = true) :
    (l1 ++ l2).takeWhile p = l1 ++ l2.takeWhile p := by
  induction l1 with
  | nil => simp
  | cons c t ih =>
    have hc := h c (by simp)
    simp [List.takeWhile_cons, hc, ih (fun d hd => h d (by simp [hd]))]

theorem dropWhile_append_all (p : Char → Bool) (l1 l2 : List Char) (h : ∀ c ∈ l1, p c = true) :
    (l1 ++ l2).dropWhile p = l2.dropWhile p := by
  induction l1 with
  | nil => simp
  | cons c t ih =>
    have hc := h c (by simp)
    simp [List.dropWhile_cons, hc, ih (fun d hd => h d (by simp [hd]))]

theorem dropWhile_cons_neg (p : Char → Bool) (c : Char) (l : List Char) (h : p c = false) :
    (c :: l).dropWhile p = c :: l := by
  simp [List.dropWhile_cons, h]

theorem isSpTab_isDelim (c : Char) (h : isDelim c = false) : isSpTab c = false := by
  unfold isDelim at h
  unfold isSpTab
  rcases Bool.or_eq_false_iff.mp h with ⟨h1, h2⟩
  rcases Bool.or_eq_false_iff.mp h1 with ⟨h3, h4⟩
  simp [h3, h2]

/-- Tokenisation of a well-formed emitted line `<t> = <v>\n`: the key
token contains no delimiter and no newline, the value contains no
newline and does not begin with a blank. -/
theorem splitEntry_mk (t v : List Char) (ht0 : t ≠ [])
    (htd : ∀ c ∈ t, isDelim c = false) (htn : ∀ c ∈ t, (c == '\n') = false)
    (hvn : ∀ c ∈ v, (c == '\n') = false)
    (hv0 : ∀ c cs, v = c :: cs → isSpTab c = false) :
    splitEntry (t ++ (' ' :: '=' :: ' ' :: v) ++ ['\n']) = some (t, v) := by
  obtain ⟨c0, t', rfl⟩ := List.exists_cons_of_ne_nil ht0
  have hel : entryLine ((c0 :: t') ++ (' ' :: '=' :: ' ' :: v) ++ ['\n'])
      = (c0 :: t') ++ (' ' :: '=' :: ' ' :: v) := by
    unfold entryLine stripAtNewline
    rw [takeWhile_append_all _ _ _ (by
      intro c hc
      simp only [List.mem_append, List.mem_cons] at hc
      rcases hc with (hc | (hc | hc | hc | hc))
      · simp [htn c (by simp [hc])]
      · subst hc; decide
      · subst hc; decide
      · subst hc; decide
      · simp [hvn c hc])]
    have h1 : List.takeWhile (fun c => !(c == '\n')) ['\n'] = [] := by decide
    rw [h1, List.append_nil]
    unfold dropSpan
    exact dropWhile_cons_neg _ _ _ (isSpTab_isDelim c0 (htd c0 (by simp)))
  have hall : ∀ c ∈ c0 :: t', (fun c => !(isDelim c)) c = true := by
    intro c hc
    simp [htd c hc]
  have htw : ((c0 :: t') ++ (' ' :: '=' :: ' ' :: v)).takeWhile (fun c => !(isDelim c))
      = c0 :: t' := by
    rw [takeWhile_append_all _ _ _ hall, List.takeWhile_cons, if_neg (by decide),
      List.append_nil]
  have hdw : ((c0 :: t') ++ (' ' :: '=' :: ' ' :: v)).dropWhile (fun c => !(isDelim c))
      = ' ' :: '=' :: ' ' :: v := by
    rw [dropWhile_append_all _ _ _ hall]
    exact dropWhile_cons_neg _ _ _ (by decide)
  have hsp : dropSpan (' ' :: '=' :: ' ' :: v) = '=' :: ' ' :: v := by
    unfold dropSpan
    rw [List.dropWhile_cons, if_pos (by decide)]
    exact dropWhile_cons_neg _ _ _ (by decide)
  have hv : dropSpan (' ' :: v) = v := by
    unfold dropSpan
    rw [List.dropWhile_cons, if_pos (by decide)]
    cases v with
    | nil => rfl
    | cons c cs => exact dropWhile_cons_neg _ _ _ (hv0 c cs rfl)
  unfold splitEntry
  rw [hel, hdw, hsp, htw]
  show (if '=' = '=' then some (c0 :: t', dropSpan (' ' :: v)) else none) = some (c0 :: t', v)
  rw [if_pos rfl, hv]

theorem takeWhile_all (p : Char → Bool) (l : List Char) (h : ∀ c ∈ l, p c = true) :
    l.takeWhile p = l := by
  have := takeWhile_append_all p l [] h
  simpa using this

theorem digitVal_nibbleChar (d : Nat) (h : d < 16) : digitVal (nibbleChar d) = d := by
  interval_cases d <;> decide

theorem isBaseDigit_nibbleChar (d : Nat) (h : d < 16) : isBaseDigit 16 (nibbleChar d) = true := by
  interval_cases d <;> decide

theorem nibbleChar_ne_nl (d : Nat) (h : d < 16) : (nibbleChar d == '\n') = false := by
  interval_cases d <;> decide

theorem hexLE_eq_digits (fuel v : Nat) (h : v ≤ fuel) : hexLE fuel v = Nat.digits 16 v := by
  induction fuel generalizing v with
  | zero =>
    have hv : v = 0 := by omega
    subst hv
    simp [hexLE]
  | succ f ih =>
    unfold hexLE
    by_cases hv : v = 0
    · subst hv; simp
    · rw [if_neg hv, Nat.digits_def' (by norm_num : (1:Nat) < 16) (Nat.pos_of_ne_zero hv),
        ih (v / 16) (by
          have := Nat.div_lt_self (Nat.pos_of_ne_zero hv) (by norm_num : (1:Nat) < 16)
          omega)]

theorem hexChars_eq_digits (v : Nat) (hv : v ≠ 0) :
    hexChars v = (Nat.digits 16 v).reverse.map nibbleChar := by
  unfold hexChars
  rw [if_neg hv, hexLE_eq_digits v v le_rfl]

theorem mem_hexChars_lt (v : Nat) (c : Char) (hc : c ∈ hexChars v) :
    ∃ d, d < 16 ∧ c = nibbleChar d := by
  by_cases hv : v = 0
  · subst hv
    simp [hexChars] at hc
    exact ⟨0, by norm_num, by rw [hc]; decide⟩
  · rw [hexChars_eq_digits v hv] at hc
    obtain ⟨d, hd, rfl⟩ := List.mem_map.mp hc
    exact ⟨d, Nat.digits_lt_base (by norm_num) (List.mem_reverse.mp hd), rfl⟩

theorem foldl_nibble (l : List Nat) (a : Nat) (h : ∀ d ∈ l, d < 16) :
    (l.map nibbleChar).foldl (fun a c => a * 16 + digitVal c) a
      = l.foldl (fun a d => a * 16 + d) a := by
  induction l generalizing a with
  | nil => rfl
  | cons d t ih =>
    simp only [List.map_cons, List.foldl_cons, digitVal_nibbleChar d (h d (by simp))]
    exact ih _ (fun e he => h e (by simp [he]))

theorem foldr_base16 (l : List Nat) :
    l.foldr (fun d a => a * 16 + d) 0 = Nat.ofDigits 16 l := by
  induction l with
  | nil => simp [Nat.ofDigits]
  | cons d t ih =>
    simp only [List.foldr_cons, ih, Nat.ofDigits_cons]
    ring

theorem readDigits_hexChars (v : Nat) : readDigits 16 (hexChars v) = v := by
  by_cases hv : v = 0
  · subst hv; decide
  · unfold readDigits
    rw [hexChars_eq_digits v hv,
      takeWhile_all _ _ (by
        intro c hc
        rw [← hexChars_eq_digits v hv] at hc
        obtain ⟨d, hd, rfl⟩ := mem_hexChars_lt v c hc
        exact isBaseDigit_nibbleChar d hd),
      foldl_nibble _ _ (fun d hd =>
        Nat.digits_lt_base (by norm_num) (List.mem_reverse.mp hd)),
      List.foldl_reverse]
    exact (foldr_base16 _).trans (Nat.ofDigits_digits 16 v)

theorem strtoul0_hexline (v : Nat) : strtoul0 ('0' :: 'x' :: hexChars v) = v % U64 := by
  unfold strtoul0
  rw [dropWhile_cons_neg _ _ _ (by decide : isCWhite '0' = false)]
  show readDigits 16 (hexChars v) % U64 = v % U64
  rw [readDigits_hexChars]

theorem splitEntry_numLine (key : List Char) (v : Nat) (ht0 : key ≠ [])
    (htd : ∀ c ∈ key, isDelim c = false) (htn : ∀ c ∈ key, (c == '\n') = false) :
    splitEntry (numLine key v) = some (key, '0' :: 'x' :: hexChars v) := by
  unfold numLine
  exact splitEntry_mk key ('0' :: 'x' :: hexChars v) ht0 htd htn
    (by
      intro c hc
      simp only [List.mem_cons] at hc
      rcases hc with hc | hc | hc
      · subst hc; decide
      · subst hc; decide
      · obtain ⟨d, hd, rfl⟩ := mem_hexChars_lt v c hc
        exact nibbleChar_ne_nl d hd)
    (by intro c cs hc; injection hc with h1 h2; subst h1; decide)

theorem mod64_mod32 (v : Nat) (hv : v < U32) : v % U64 % U32 = v := by
  rw [Nat.mod_mod_of_dvd v (by norm_num [U32, U64]), Nat.mod_eq_of_lt hv]

theorem upd_pagesize (img : ImgState) (v : Nat) (hv : v < U32) :
    update_header_entry img (numLine keyPagesize v)
      = .ok { img with header := { img.header with page_size := v } } := by
  unfold update_header_entry
  rw [splitEntry_numLine keyPagesize v (by decide) (by decide) (by decide)]
  show applyEntry img keyPagesize ('0' :: 'x' :: hexChars v) = _
  rw [show applyEntry img keyPagesize ('0' :: 'x' :: hexChars v)
      = .ok { img with header :=
        { img.header with page_size := strtoul0 ('0' :: 'x' :: hexChars v) % U32 } } from rfl,
    strtoul0_hexline, mod64_mod32 v hv]

theorem upd_kerneladdr (img : ImgState) (v : Nat) (hv : v < U32) :
    update_header_entry img (numLine keyKerneladdr v)
      = .ok { img with header := { img.header with kernel_addr := v } } := by
  unfold update_header_entry
  rw [splitEntry_numLine keyKerneladdr v (by decide) (by decide) (by decide)]
  show applyEntry img keyKerneladdr ('0' :: 'x' :: hexChars v) = _
  rw [show applyEntry img keyKerneladdr ('0' :: 'x' :: hexChars v)
      = .ok { img with header :=
        { img.header with kernel_addr := strtoul0 ('0' :: 'x' :: hexChars v) % U32 } } from rfl,
    strtoul0_hexline, mod64_mod32 v hv]

theorem upd_ramdiskaddr (img : ImgState) (v : Nat) (hv : v < U32) :
    update_header_entry img (numLine keyRamdiskaddr v)
      = .ok { img with header := { img.header with ramdisk_addr := v } } := by
  unfold update_header_entry
  rw [splitEntry_numLine keyRamdiskaddr v (by decide) (by decide) (by decide)]
  show applyEntry img keyRamdiskaddr ('0' :: 'x' :: hexChars v) = _
  rw [show applyEntry img keyRamdiskaddr ('0' :: 'x' :: hexChars v)
      = .ok { img with header :=
        { img.header with ramdisk_addr := strtoul0 ('0' :: 'x' :: hexChars v) % U32 } } from rfl,
    strtoul0_hexline, mod64_mod32 v hv]

theorem upd_secondaddr (img : ImgState) (v : Nat) (hv : v < U32) :
    update_header_entry img (numLine keySecondaddr v)
      = .ok { img with header := { img.header with second_addr := v } } := by
  unfold update_header_entry
  rw [splitEntry_numLine keySecondaddr v (by decide) (by decide) (by decide)]
  show applyEntry img keySecondaddr ('0' :: 'x' :: hexChars v) = _
  rw [show applyEntry img keySecondaddr ('0' :: 'x' :: hexChars v)
      = .ok { img with header :=
        { img.header with second_addr := strtoul0 ('0' :: 'x' :: hexChars v) % U32 } } from rfl,
    strtoul0_hexline, mod64_mod32 v hv]

theorem upd_tagsaddr (img : ImgState) (v : Nat) (hv : v < U32) :
    update_header_entry img (numLine keyTagsaddr v)
      = .ok { img with header := { img.header with tags_addr := v } } := by
  unfold update_header_entry
  rw [splitEntry_numLine keyTagsaddr v (by decide) (by decide) (by decide)]
  show applyEntry img keyTagsaddr ('0' :: 'x' :: hexChars v) = _
  rw [show applyEntry img keyTagsaddr ('0' :: 'x' :: hexChars v)
      = .ok { img with header :=
        { img.header with tags_addr := strtoul0 ('0' :: 'x' :: hexChars v) % U32 } } from rfl,
    strtoul0_hexline, mod64_mod32 v hv]

theorem upd_cmdline (img : ImgState) (c : List Char) (hlen : c.length < 512)
    (hnl : ∀ ch ∈ c, (ch == '\n') = false)
    (h0 : ∀ ch cs, c = ch :: cs → isSpTab ch = false) :
    update_header_entry img (cmdlineLine c)
      = .ok { img with header := { img.header with cmdline := c } } := by
  unfold update_header_entry cmdlineLine
  rw [splitEntry_mk keyCmdline c (by decide) (by decide) (by decide) hnl h0]
  show applyEntry img keyCmdline c = _
  rw [show applyEntry img keyCmdline c
      = (if c.length ≥ 512 then Except.error ConfigErr.cmdlineTooLong
        else Except.ok { img with header := { img.header with cmdline := c } }) from rfl,
    if_neg (by omega)]

/-! ### Helper lemmas: update pipeline inversion -/

theorem resolve_size_ok (size total sz : Nat) (h : resolve_size size total = .ok sz) :
    (size = 0 → sz = total) ∧ (size ≠ 0 → sz = size ∧ total ≤ size) := by
  unfold resolve_size at h
  split_ifs at h with h1 h2
  · injection h with h3
    constructor
    · intro
      omega
    · intro hn
      exact absurd h1 hn
  · injection h with h3
    constructor
    · intro h0
      exact absurd h0 h1
    · intro
      constructor
      · omega
      · omega

theorem update_images_ok_resolve (file : List Nat) (size : Nat) (h : BootImgHdr)
    (kOpt rOpt sOpt : Option (List Nat)) (img' : ImgFull)
    (hrun : update_images file size h kOpt rOpt sOpt = .ok img') :
    resolve_size size (total_size_c img'.header.page_size img'.header.kernel_size
      img'.header.ramdisk_size img'.header.second_size) = .ok img'.size := by
  unfold update_images at hrun
  by_cases hp : h.page_size = 0
  · rw [if_pos hp] at hrun
    cases hrun
  rw [if_neg hp] at hrun
  cases hk : load_kernel kOpt h with
  | error e =>
    simp only [hk] at hrun
    exact (Except.noConfusion hrun)
  | ok pk =>
    obtain ⟨h1, kbuf⟩ := pk
    simp only [hk] at hrun
    cases hr : load_ramdisk file rOpt kbuf (ramdisk_offset_upd h.page_size h.kernel_size)
        h.ramdisk_size h1 with
    | error e =>
      simp only [hr] at hrun
      exact (Except.noConfusion hrun)
    | ok pr =>
      obtain ⟨h2, rbuf⟩ := pr
      simp only [hr] at hrun
      cases hs : load_second file sOpt rbuf
          (second_offset_upd h.page_size h.kernel_size h.ramdisk_size) h.second_size h2 with
      | error e =>
        simp only [hs] at hrun
        exact (Except.noConfusion hrun)
      | ok ps2 =>
        obtain ⟨h3, sbuf⟩ := ps2
        simp only [hs] at hrun
        cases hz : resolve_size size
            (total_size_c h3.page_size h3.kernel_size h3.ramdisk_size h3.second_size) with
        | error e =>
          simp only [hz] at hrun
          exact (Except.noConfusion hrun)
        | ok sz =>
          simp only [hz] at hrun
          cases hrun
          exact hz

theorem write_bootimg_length (file : List Nat) (img : ImgFull) :
    (write_bootimg file img).length = img.size := by
  unfold write_bootimg
  exact setLength_length _ _

theorem resolve_size_le (size t sz : Nat) (h : resolve_size size t = .ok sz) : t ≤ sz := by
  obtain ⟨h0, h1⟩ := resolve_size_ok size t sz h
  by_cases hz : size = 0
  · exact le_of_eq (h0 hz).symm
  · obtain ⟨he, hle⟩ := h1 hz
    omega

/-- The suffix of `write_bootimg` from the ramdisk block on: seek to
`A`, write `r` then padding, optionally seek to `B` and write the
second stage and its padding, truncate to `SZ`.  The bytes of `r` stay
readable at `A` provided the later writes and the truncation lie beyond
`A + r.length`. -/
theorem span_pipeline (s3 : FS) (A : Nat) (r pad1 : List Nat) (cond : Prop) [Decidable cond]
    (B : Nat) (d2 pad2 : List Nat) (SZ len : Nat)
    (hlen : r.length = len) (hAB : A + len ≤ B) (hSZ : A + len ≤ SZ) :
    readSpan (setLength (FS.file (if cond then
        wr (wr (sk (wr (wr (sk s3 A) r) pad1) B) d2) pad2
      else wr (wr (sk s3 A) r) pad1)) SZ) A len = r := by
  subst hlen
  have h4 : readSpan (wr (wr (sk s3 A) r) pad1).file A r.length = r := by
    show readSpan (writeAt (writeAt s3.file A r) (A + r.length) pad1) A r.length = r
    rw [readSpan_writeAt_before _ _ _ _ _ le_rfl (by rw [length_writeAt]; omega),
      readSpan_writeAt_self]
  have hlen4 : A + r.length ≤ (wr (wr (sk s3 A) r) pad1).file.length := by
    show A + r.length ≤ (writeAt (writeAt s3.file A r) (A + r.length) pad1).length
    rw [length_writeAt, length_writeAt]
    omega
  by_cases hc : cond
  · rw [if_pos hc]
    show readSpan (setLength
        (writeAt (writeAt (wr (wr (sk s3 A) r) pad1).file B d2) (B + d2.length) pad2) SZ)
        A r.length = r
    rw [readSpan_setLength _ _ _ _ hSZ (by rw [length_writeAt, length_writeAt]; omega),
      readSpan_writeAt_before _ _ _ _ _ (by omega) (by rw [length_writeAt]; omega),
      readSpan_writeAt_before _ _ _ _ _ hAB hlen4, h4]
  · rw [if_neg hc]
    rw [readSpan_setLength _ _ _ _ hSZ hlen4, h4]

/-- Inversion of a successful `update_images` run with a kernel
replacement given and no ramdisk replacement: the ramdisk is carried
over from the source image at the offset computed from the
pre-replacement header, and the header's ramdisk size and page size are
unchanged. -/
theorem update_images_carry (file : List Nat) (size : Nat) (h : BootImgHdr)
    (kb : List Nat) (sOpt : Option (List Nat)) (img' : ImgFull)
    (hrun : update_images file size h (some kb) none sOpt = .ok img') :
    h.page_size ≠ 0 ∧
    kb.length % U32 ≠ 0 ∧
    img'.header.kernel_size = kb.length % U32 ∧
    img'.header.ramdisk_size = h.ramdisk_size ∧
    img'.header.page_size = h.page_size ∧
    img'.kernel = some (kb.take (kb.length % U32)) ∧
    img'.ramdisk = some (readSpan file (ramdisk_offset_upd h.page_size h.kernel_size)
      h.ramdisk_size) ∧
    h.ramdisk_size ≠ 0 ∧
    ramdisk_offset_upd h.page_size h.kernel_size + h.ramdisk_size ≤ file.length := by
  unfold update_images at hrun
  by_cases hp : h.page_size = 0
  · rw [if_pos hp] at hrun
    cases hrun
  rw [if_neg hp] at hrun
  by_cases hks : kb.length % U32 = 0
  · simp only [load_kernel, hks, if_pos] at hrun
    exact (Except.noConfusion hrun)
  simp only [load_kernel, if_neg hks] at hrun
  by_cases hcar : h.ramdisk_size ≠ 0 ∧
      ramdisk_offset_upd h.page_size h.kernel_size + h.ramdisk_size ≤ file.length
  swap
  · simp only [load_ramdisk, if_neg hcar] at hrun
    exact (Except.noConfusion hrun)
  simp only [load_ramdisk, if_pos hcar] at hrun
  refine ⟨hp, hks, ?_⟩
  cases sOpt with
  | some sb =>
    by_cases hss : sb.length % U32 = 0
    · simp only [load_second, hss, if_pos] at hrun
      exact (Except.noConfusion hrun)
    simp only [load_second, if_neg hss] at hrun
    cases hz : resolve_size size (total_size_c h.page_size (kb.length % U32) h.ramdisk_size
        (sb.length % U32)) with
    | error e =>
      rw [hz] at hrun
      exact (Except.noConfusion hrun)
    | ok sz =>
      rw [hz] at hrun
      cases hrun
      exact ⟨rfl, rfl, rfl, rfl, rfl, hcar.1, hcar.2⟩
  | none =>
    by_cases hs0 : h.second_size ≠ 0
    · simp only [load_second, if_pos hs0] at hrun
      by_cases hcs : h.second_size ≠ 0 ∧
          second_offset_upd h.page_size h.kernel_size h.ramdisk_size + h.second_size ≤ file.length
      swap
      · simp only [if_neg hcs] at hrun
        exact (Except.noConfusion hrun)
      simp only [if_pos hcs] at hrun
      cases hz : resolve_size size (total_size_c h.page_size (kb.length % U32) h.ramdisk_size
          h.second_size) with
      | error e =>
        rw [hz] at hrun
        exact (Except.noConfusion hrun)
      | ok sz =>
        rw [hz] at hrun
        cases hrun
        exact ⟨rfl, rfl, rfl, rfl, rfl, hcar.1, hcar.2⟩
    · simp only [load_second, if_neg hs0] at hrun
      cases hz : resolve_size size (total_size_c h.page_size (kb.length % U32) h.ramdisk_size
          h.second_size) with
      | error e =>
        rw [hz] at hrun
        exact (Except.noConfusion hrun)
      | ok sz =>
        rw [hz] at hrun
        cases hrun
        exact ⟨rfl, rfl, rfl, rfl, rfl, hcar.1, hcar.2⟩

/-- C4: in every successful update in which a kernel replacement is
given (`-k`) but no ramdisk replacement (`-r` omitted), the ramdisk
bytes are read from the source image at the offset computed from the
pre-replacement header (`update_images`, lines 477-490), and the
output image produced by `write_bootimg` contains exactly those
original ramdisk bytes at the offset computed from the updated header.
Success of the run implies the source ramdisk is non-empty.  The
no-wrap-around hypotheses keep all 32-bit offset arithmetic below
`U32`, and `hdrSize ≤ page_size` keeps the header padding subtraction
from wrapping (the C code has undefined behaviour otherwise, see the
page-size wrap-around claim). -/
theorem c4_kernel_update_ramdisk_carryover (file : List Nat) (size : Nat) (h : BootImgHdr)
    (kb : List Nat) (sOpt : Option (List Nat)) (img' : ImgFull)
    (hrun : update_images file size h (some kb) none sOpt = .ok img')
    (hpw : hdrSize ≤ h.page_size)
    (hknw : kb.length + h.page_size ≤ U32)
    (hrnw : h.ramdisk_size + h.page_size ≤ U32)
    (htot : (1 + cdiv kb.length h.page_size + cdiv h.ramdisk_size h.page_size
        + cdiv img'.header.second_size h.page_size) * h.page_size < U32) :
    img'.ramdisk = some (readSpan file (ramdisk_offset_upd h.page_size h.kernel_size)
        h.ramdisk_size) ∧
    img'.header.ramdisk_size = h.ramdisk_size ∧
    readSpan (write_bootimg file img')
        (ramdisk_offset_upd img'.header.page_size img'.header.kernel_size)
        img'.header.ramdisk_size
      = readSpan file (ramdisk_offset_upd h.page_size h.kernel_size) h.ramdisk_size := by
  obtain ⟨hp0, hks0, hks, hrs, hps, hker, hram, hrne, hrbound⟩ :=
    update_images_carry file size h kb sOpt img' hrun
  have h608 : hdrSize = 608 := rfl
  have hppos : 0 < h.page_size := by omega
  have hklt : kb.length < U32 := by omega
  have hkmod : kb.length % U32 = kb.length := Nat.mod_eq_of_lt hklt
  have hres := update_images_ok_resolve file size h (some kb) none sOpt img' hrun
  have htotle := resolve_size_le _ _ _ hres
  rw [hps, hks, hrs, hkmod] at htotle
  have htsc : total_size_c h.page_size kb.length h.ramdisk_size img'.header.second_size
      = (1 + cdiv kb.length h.page_size + cdiv h.ramdisk_size h.page_size
        + cdiv img'.header.second_size h.page_size) * h.page_size := by
    unfold total_size_c
    exact Nat.mod_eq_of_lt htot
  rw [htsc] at htotle
  have hAlt : (1 + cdiv kb.length h.page_size) * h.page_size < U32 :=
    lt_of_le_of_lt (Nat.mul_le_mul_right _ (by omega)) htot
  have hBlt : (1 + cdiv kb.length h.page_size + cdiv h.ramdisk_size h.page_size) * h.page_size
      < U32 :=
    lt_of_le_of_lt (Nat.mul_le_mul_right _ (by omega)) htot
  have hrsle : h.ramdisk_size ≤ cdiv h.ramdisk_size h.page_size * h.page_size :=
    le_cdiv_mul _ _ hppos hrnw
  have hring : (1 + cdiv kb.length h.page_size + cdiv h.ramdisk_size h.page_size) * h.page_size
      = (1 + cdiv kb.length h.page_size) * h.page_size
        + cdiv h.ramdisk_size h.page_size * h.page_size := by ring
  have hAB : (1 + cdiv kb.length h.page_size) * h.page_size + h.ramdisk_size
      ≤ (1 + cdiv kb.length h.page_size + cdiv h.ramdisk_size h.page_size) * h.page_size := by
    omega
  have hring2 : (1 + cdiv kb.length h.page_size + cdiv h.ramdisk_size h.page_size
        + cdiv img'.header.second_size h.page_size) * h.page_size
      = (1 + cdiv kb.length h.page_size + cdiv h.ramdisk_size h.page_size) * h.page_size
        + cdiv img'.header.second_size h.page_size * h.page_size := by ring
  have hSZ : (1 + cdiv kb.length h.page_size) * h.page_size + h.ramdisk_size ≤ img'.size := by
    omega
  have hrb2 : ((1 + cdiv h.kernel_size h.page_size) * h.page_size) % U32 + h.ramdisk_size
      ≤ file.length := hrbound
  refine ⟨hram, hrs, ?_⟩
  simp only [write_bootimg, hker, hram]
  rw [fit_self (readSpan file (ramdisk_offset_upd h.page_size h.kernel_size) h.ramdisk_size)
    img'.header.ramdisk_size (by rw [readSpan_length _ _ _ hrbound, hrs])]
  unfold ramdisk_offset_upd
  rw [hks, hrs, hps, hkmod, Nat.mod_eq_of_lt hAlt, Nat.mod_eq_of_lt hBlt]
  exact span_pipeline _ _ _ _ _ _ _ _ _ _
    (readSpan_length _ _ _ hrb2) hAB hSZ

/-! ### Claim theorems -/

/-- C1: the claim that the second-stage offset arithmetic is identical
in the extraction and assembly paths is violated by the code:
`extract_second` computes `(1 + ceil((rsize+ksize)/psize))*psize`
while `update_images`/`write_bootimg` compute
`(1 + ceil(ksize/psize) + ceil(rsize/psize))*psize`; at
`page_size = 4096`, `kernel_size = 1`, `ramdisk_size = 1` the former
is 8192 and the latter 12288.  The ramdisk offsets do agree. -/
theorem c1_second_offset_divergence :
    (∀ ps ks, ramdisk_offset_ext ps ks = ramdisk_offset_upd ps ks) ∧
    second_offset_ext 4096 1 1 = 8192 ∧
    second_offset_upd 4096 1 1 = 12288 ∧
    second_offset_ext 4096 1 1 ≠ second_offset_upd 4096 1 1 :=
  ⟨fun _ _ => rfl, by decide, by decide, by decide⟩

/-- C2 (counterexample): a successful update of an image whose declared
size (1824, three 608-byte pages) exceeds the computed layout total
(1216) leaves the destination at length 1824, not at the computed
total — the claim that the final length always equals the layout
formula's total is false. -/
theorem c2_counterexample :
    update_images (List.replicate 1824 5) 1824 ⟨bootMagic, 304, 0, 0, 0, 0, 0, 0, 608, [], [], [], []⟩
        none none none
      = .ok ⟨1824, ⟨bootMagic, 304, 0, 0, 0, 0, 0, 0, 608, [], [], [], []⟩, none, none, none⟩ ∧
    update_run (List.replicate 1824 5) 1824 ⟨bootMagic, 304, 0, 0, 0, 0, 0, 0, 608, [], [], [], []⟩
        none none none
      = .ok (write_bootimg (List.replicate 1824 5)
          ⟨1824, ⟨bootMagic, 304, 0, 0, 0, 0, 0, 0, 608, [], [], [], []⟩, none, none, none⟩) ∧
    (write_bootimg (List.replicate 1824 5)
        ⟨1824, ⟨bootMagic, 304, 0, 0, 0, 0, 0, 0, 608, [], [], [], []⟩, none, none, none⟩).length
      = 1824 ∧
    total_size_c 608 304 0 0 = 1216 ∧
    (1824 : Nat) ≠ 1216 := by
  refine ⟨by decide, ?_, write_bootimg_length _ _, by decide, by decide⟩
  unfold update_run
  rw [show update_images (List.replicate 1824 5) 1824
      ⟨bootMagic, 304, 0, 0, 0, 0, 0, 0, 608, [], [], [], []⟩ none none none
    = .ok ⟨1824, ⟨bootMagic, 304, 0, 0, 0, 0, 0, 0, 608, [], [], [], []⟩, none, none, none⟩
    from by decide]

/-- C2 (amended): after a successful update or create, the destination
file's length equals the resolved target size `img->size`: the
computed layout total when the declared size was 0, and the declared
size itself otherwise (which may strictly exceed the computed total;
trailing data up to the declared size is then kept). -/
theorem c2_truncate_to_resolved_size (file : List Nat) (size : Nat) (h : BootImgHdr)
    (kOpt rOpt sOpt : Option (List Nat)) (img' : ImgFull)
    (hrun : update_images file size h kOpt rOpt sOpt = .ok img') :
    (write_bootimg file img').length = img'.size ∧
    (size = 0 → img'.size = total_size_c img'.header.page_size img'.header.kernel_size
      img'.header.ramdisk_size img'.header.second_size) ∧
    (size ≠ 0 → img'.size = size) := by
  have hres := update_images_ok_resolve file size h kOpt rOpt sOpt img' hrun
  obtain ⟨h0, h1⟩ := resolve_size_ok _ _ _ hres
  exact ⟨write_bootimg_length file img', h0, fun hn => (h1 hn).1⟩

/-- Witness for the amended C2 theorem at a concrete update. -/
theorem c2_witness :
    (write_bootimg (List.replicate 1824 5)
        ⟨1824, ⟨bootMagic, 304, 0, 0, 0, 0, 0, 0, 608, [], [], [], []⟩, none, none, none⟩).length
      = (⟨1824, ⟨bootMagic, 304, 0, 0, 0, 0, 0, 0, 608, [], [], [], []⟩, none, none, none⟩ :
          ImgFull).size ∧
    ((1824 : Nat) = 0 → (⟨1824, ⟨bootMagic, 304, 0, 0, 0, 0, 0, 0, 608, [], [], [], []⟩,
        none, none, none⟩ : ImgFull).size = total_size_c 608 304 0 0) ∧
    ((1824 : Nat) ≠ 0 → (⟨1824, ⟨bootMagic, 304, 0, 0, 0, 0, 0, 0, 608, [], [], [], []⟩,
        none, none, none⟩ : ImgFull).size = 1824) :=
  c2_truncate_to_resolved_size (List.replicate 1824 5) 1824
    ⟨bootMagic, 304, 0, 0, 0, 0, 0, 0, 608, [], [], [], []⟩ none none none
    ⟨1824, ⟨bootMagic, 304, 0, 0, 0, 0, 0, 0, 608, [], [], [], []⟩, none, none, none⟩ (by decide)

/-- C3: the update/create path recomputes the total from the possibly
updated header and resolves the target size: an unset (0) size adopts
the computed total; a set size is kept and is never exceeded by the
total on success; the oversize check `resolve_size` fails exactly when
the size is set and the total exceeds it, and any `update_images`
error aborts the run before `write_bootimg` touches the destination
(`update_run` propagates the error, leaving the file unchanged). -/
theorem c3_total_size_validation (file : List Nat) (size : Nat) (h : BootImgHdr)
    (kOpt rOpt sOpt : Option (List Nat)) :
    (∀ total, resolve_size size total = .error RunErr.tooBig ↔ size ≠ 0 ∧ total > size) ∧
    (∀ img', update_images file size h kOpt rOpt sOpt = .ok img' →
      (size = 0 → img'.size = total_size_c img'.header.page_size img'.header.kernel_size
        img'.header.ramdisk_size img'.header.second_size) ∧
      (size ≠ 0 → img'.size = size ∧ total_size_c img'.header.page_size img'.header.kernel_size
        img'.header.ramdisk_size img'.header.second_size ≤ size)) ∧
    (∀ e, update_images file size h kOpt rOpt sOpt = .error e →
      update_run file size h kOpt rOpt sOpt = .error e) := by
  refine ⟨?_, ?_, ?_⟩
  · intro total
    unfold resolve_size
    constructor
    · intro he
      split_ifs at he with h1 h2
      exact ⟨h1, h2⟩
    · intro ⟨h1, h2⟩
      rw [if_neg h1, if_pos h2]
  · intro img' hrun
    have hres := update_images_ok_resolve file size h kOpt rOpt sOpt img' hrun
    obtain ⟨h0, h1⟩ := resolve_size_ok _ _ _ hres
    exact ⟨h0, h1⟩
  · intro e he
    unfold update_run
    rw [he]

/-- Witness for the C3 theorem: a fixed declared size of 100 bytes with
a computed total of 1216 bytes makes the run abort with the oversize
error and no write. -/
theorem c3_witness :
    update_run [] 100 ⟨bootMagic, 1, 0, 0, 0, 0, 0, 0, 608, [], [], [], []⟩ none none none
      = .error RunErr.tooBig :=
  (c3_total_size_validation [] 100 ⟨bootMagic, 1, 0, 0, 0, 0, 0, 0, 608, [], [], [], []⟩
    none none none).2.2 RunErr.tooBig (by decide)

/-- C9: with a kernel replacement given, no ramdisk replacement and a
zero source ramdisk size, the carry-over `fread` of 0 bytes returns 0
items (compared against 1) and `update_images` aborts with a read
failure — even though `check_boot_img_header` accepts a zero ramdisk
size whenever magic, kernel size, page size and total size are in
order. -/
theorem c9_zero_ramdisk_update_fails (file : List Nat) (size : Nat) (h : BootImgHdr)
    (kb : List Nat) (sOpt : Option (List Nat))
    (hr0 : h.ramdisk_size = 0) (hp : h.page_size ≠ 0) (hks : kb.length % U32 ≠ 0) :
    update_images file size h (some kb) none sOpt = .error RunErr.readFail ∧
    (h.magic = bootMagic → h.kernel_size ≠ 0 →
      total_size_c h.page_size h.kernel_size h.ramdisk_size h.second_size ≤ size →
      check_boot_img_header h size = false) := by
  constructor
  · unfold update_images
    rw [if_neg hp]
    simp only [load_kernel, if_neg hks, load_ramdisk,
      if_neg (show ¬(h.ramdisk_size ≠ 0 ∧
        ramdisk_offset_upd h.page_size h.kernel_size + h.ramdisk_size ≤ file.length) from by
          simp [hr0])]
  · intro hm hk ht
    unfold check_boot_img_header
    rw [if_neg (by simp [hm]), if_neg hk, if_neg hp, if_neg (by omega)]

/-- Witness for the C9 theorem at a concrete ramdisk-less image. -/
theorem c9_witness :
    update_images [] 1216 ⟨bootMagic, 1, 0, 0, 0, 0, 0, 0, 608, [], [], [], []⟩
        (some [1]) none none
      = .error RunErr.readFail ∧
    check_boot_img_header ⟨bootMagic, 1, 0, 0, 0, 0, 0, 0, 608, [], [], [], []⟩ 1216 = false := by
  have hc := c9_zero_ramdisk_update_fails [] 1216
    ⟨bootMagic, 1, 0, 0, 0, 0, 0, 0, 608, [], [], [], []⟩ [1] none
    (by decide) (by decide) (by decide)
  exact ⟨hc.1, hc.2 (by decide) (by decide) (by decide)⟩

/-- C5: `check_boot_img_header` rejects a header exactly when the magic
differs from the literal tag, or the kernel size is zero, or the page
size is zero, or the computed (32-bit) total layout size exceeds the
available image size; in particular a zero ramdisk size alone never
causes rejection. -/
theorem c5_header_validation_iff (h : BootImgHdr) (size : Nat) :
    check_boot_img_header h size = true ↔
      (h.magic ≠ bootMagic ∨ h.kernel_size = 0 ∨ h.page_size = 0 ∨
        total_size_c h.page_size h.kernel_size h.ramdisk_size h.second_size > size) := by
  unfold check_boot_img_header
  split_ifs with h1 h2 h3 h4 <;> simp_all

/-- C6 (counterexample): the computed total is *not* strictly
increasing in the segment sizes — growing the kernel from 1 to 2 bytes
leaves the total at 8192 with a 4096-byte page — and under 32-bit
wrap-around it is not even a multiple of the page size:
with `page_size = 3` and `kernel_size = 2^32 - 3` the total is 2. -/
theorem c6_counterexample :
    total_size_c 4096 1 0 0 = 8192 ∧
    total_size_c 4096 2 0 0 = 8192 ∧
    (1 : Nat) < 2 ∧
    total_size_c 3 4294967293 0 0 = 2 ∧
    total_size_c 3 4294967293 0 0 % 3 ≠ 0 := by
  refine ⟨by decide, by decide, by decide, by decide, by decide⟩

/-- C6 (amended): in the wrap-free regime (each `size + page_size` at
most `2^32` and the unwrapped total below `2^32`) the computed total is
a multiple of the page size and is monotone (non-decreasing, not
strictly increasing) in each of the three segment sizes. -/
theorem c6_total_multiple_and_monotone (ps ks rs ss : Nat) (hp : 0 < ps)
    (hk : ks + ps ≤ U32) (hr : rs + ps ≤ U32) (hs : ss + ps ≤ U32)
    (ht : (1 + (ks + ps - 1) / ps + (rs + ps - 1) / ps + (ss + ps - 1) / ps) * ps < U32) :
    ps ∣ total_size_c ps ks rs ss ∧
    (∀ ks2, ks ≤ ks2 → ks2 + ps ≤ U32 →
      (1 + (ks2 + ps - 1) / ps + (rs + ps - 1) / ps + (ss + ps - 1) / ps) * ps < U32 →
      total_size_c ps ks rs ss ≤ total_size_c ps ks2 rs ss) ∧
    (∀ rs2, rs ≤ rs2 → rs2 + ps ≤ U32 →
      (1 + (ks + ps - 1) / ps + (rs2 + ps - 1) / ps + (ss + ps - 1) / ps) * ps < U32 →
      total_size_c ps ks rs ss ≤ total_size_c ps ks rs2 ss) ∧
    (∀ ss2, ss ≤ ss2 → ss2 + ps ≤ U32 →
      (1 + (ks + ps - 1) / ps + (rs + ps - 1) / ps + (ss2 + ps - 1) / ps) * ps < U32 →
      total_size_c ps ks rs ss ≤ total_size_c ps ks rs ss2) := by
  refine ⟨?_, ?_, ?_, ?_⟩
  · rw [total_size_c_eq ps ks rs ss hp hk hr hs ht]
    exact dvd_mul_left ps _
  · intro ks2 hle h2 ht2
    rw [total_size_c_eq ps ks rs ss hp hk hr hs ht,
      total_size_c_eq ps ks2 rs ss hp h2 hr hs ht2]
    exact Nat.mul_le_mul_right ps (by
      have := Nat.div_le_div_right (c := ps) (show ks + ps - 1 ≤ ks2 + ps - 1 by omega)
      omega)
  · intro rs2 hle h2 ht2
    rw [total_size_c_eq ps ks rs ss hp hk hr hs ht,
      total_size_c_eq ps ks rs2 ss hp hk h2 hs ht2]
    exact Nat.mul_le_mul_right ps (by
      have := Nat.div_le_div_right (c := ps) (show rs + ps - 1 ≤ rs2 + ps - 1 by omega)
      omega)
  · intro ss2 hle h2 ht2
    rw [total_size_c_eq ps ks rs ss hp hk hr hs ht,
      total_size_c_eq ps ks rs ss2 hp hk hr h2 ht2]
    exact Nat.mul_le_mul_right ps (by
      have := Nat.div_le_div_right (c := ps) (show ss + ps - 1 ≤ ss2 + ps - 1 by omega)
      omega)

/-- Witness for the amended C6 theorem at concrete sizes. -/
theorem c6_witness :
    4096 ∣ total_size_c 4096 1 1 0 ∧
    total_size_c 4096 1 1 0 ≤ total_size_c 4096 5000 1 0 := by
  have hc := c6_total_multiple_and_monotone 4096 1 1 0 (by decide) (by decide) (by decide)
    (by decide) (by decide)
  exact ⟨hc.1, hc.2.1 5000 (by decide) (by decide) (by decide)⟩

set_option maxRecDepth 80000 in
/-- Witness for the C4 theorem: a concrete update replacing a 3-byte
kernel with a 700-byte one carries the 2-byte ramdisk from offset 1216
of the source image and the theorem places it at offset 1824 of the
output. -/
theorem c4_witness :
    (⟨3000, ⟨bootMagic, 700, 0, 2, 0, 0, 0, 0, 608, [], [], [], []⟩,
        some (List.replicate 700 4), some [11, 22], none⟩ : ImgFull).ramdisk
      = some (readSpan (List.replicate 1216 1 ++ [11, 22])
          (ramdisk_offset_upd 608 3) 2) ∧
    (⟨3000, ⟨bootMagic, 700, 0, 2, 0, 0, 0, 0, 608, [], [], [], []⟩,
        some (List.replicate 700 4), some [11, 22], none⟩ : ImgFull).header.ramdisk_size = 2 ∧
    readSpan (write_bootimg (List.replicate 1216 1 ++ [11, 22])
        ⟨3000, ⟨bootMagic, 700, 0, 2, 0, 0, 0, 0, 608, [], [], [], []⟩,
          some (List.replicate 700 4), some [11, 22], none⟩)
        (ramdisk_offset_upd 608 700) 2
      = readSpan (List.replicate 1216 1 ++ [11, 22]) (ramdisk_offset_upd 608 3) 2 := by
  have hc := c4_kernel_update_ramdisk_carryover (List.replicate 1216 1 ++ [11, 22]) 3000
    ⟨bootMagic, 3, 0, 2, 0, 0, 0, 0, 608, [], [], [], []⟩ (List.replicate 700 4) none
    ⟨3000, ⟨bootMagic, 700, 0, 2, 0, 0, 0, 0, 608, [], [], [], []⟩,
      some (List.replicate 700 4), some [11, 22], none⟩
    (by decide) (by decide) (by decide) (by decide) (by decide)
  exact hc

theorem apply_lines_cons_ok (img img1 : ImgState) (l : List Char) (ls : List (List Char))
    (hok : update_header_entry img l = .ok img1) :
    apply_lines img (l :: ls) = apply_lines img1 ls := by
  simp only [apply_lines, hok]

theorem applyEntry_badEntry_iff (img : ImgState) (t v : List Char) :
    applyEntry img t v = .error .badEntry ↔ acceptsKey t = false := by
  unfold applyEntry acceptsKey
  split_ifs with h1 h2 h3 h4 h5 h6 h7 h8 <;> simp_all
  all_goals try (split <;> simp_all)

/-- C7 (counterexample): the key token `pagesizeZ` is not one of the
seven recognized keys, yet `update_header_entry` accepts the line
`pagesizeZ = 7` (the `strncmp` prefix comparison matches `pagesize`)
and sets the page size to 7 instead of failing with the bad-entry
error. -/
theorem c7_counterexample :
    splitEntry ("pagesizeZ = 7".toList) = some ("pagesizeZ".toList, ['7']) ∧
    ("pagesizeZ".toList ∉ [keyCmdline, keyBootsize, keyPagesize, keyKerneladdr,
      keyRamdiskaddr, keySecondaddr, keyTagsaddr]) ∧
    update_header_entry ⟨0, false, ⟨[], 0, 0, 0, 0, 0, 0, 0, 0, [], [], [], []⟩⟩
        ("pagesizeZ = 7".toList)
      = .ok ⟨0, false, ⟨[], 0, 0, 0, 0, 0, 0, 0, 7, [], [], [], []⟩⟩ := by decide

/-- C7 (amended): `update_header_entry` fails with the bad-entry error
exactly when the line has no `=` after the key token, or the token
neither equals `cmdline` nor carries one of the recognized
`strncmp` prefixes (`bootsize`/`pagesize`/`tagsaddr` in its first 8
characters, `kerneladdr`/`secondaddr` in its first 10, `ramdiskaddr`
in its first 11). -/
theorem c7_bad_entry_iff (img : ImgState) (cmd : List Char) :
    update_header_entry img cmd = .error .badEntry ↔
      (splitEntry cmd = none ∨
        ∃ t v, splitEntry cmd = some (t, v) ∧ acceptsKey t = false) := by
  cases hsp : splitEntry cmd with
  | none => simp [update_header_entry, hsp]
  | some tv =>
    obtain ⟨t, v⟩ := tv
    simp only [update_header_entry, hsp]
    rw [applyEntry_badEntry_iff]
    constructor
    · intro ha
      exact Or.inr ⟨t, v, rfl, ha⟩
    · rintro (hn | ⟨t2, v2, heq, ha⟩)
      · exact (Option.noConfusion hn)
      · injection heq with h2
        injection h2 with ht hv
        subst ht
        exact ha

/-- C8 (counterexample): the cmdline config round-trip loses leading
whitespace (the parser's `strspn` after `=` strips it) and truncates at
an embedded newline, so parsing the serialized line does not always
recover the original cmdline value. -/
theorem c8_counterexample :
    (write_bootimg_config ⟨[], 0, 0, 0, 0, 0, 0, 0, 0, [], [], [' ', 'a'], []⟩).get ⟨5, by decide⟩
      = cmdlineLine [' ', 'a'] ∧
    update_header_entry ⟨0, false, ⟨[], 0, 0, 0, 0, 0, 0, 0, 0, [], [], [], []⟩⟩
        (cmdlineLine [' ', 'a'])
      = .ok ⟨0, false, ⟨[], 0, 0, 0, 0, 0, 0, 0, 0, [], [], ['a'], []⟩⟩ ∧
    (['a'] : List Char) ≠ [' ', 'a'] ∧
    update_header_entry ⟨0, false, ⟨[], 0, 0, 0, 0, 0, 0, 0, 0, [], [], [], []⟩⟩
        (cmdlineLine ['a', '\n', 'b'])
      = .ok ⟨0, false, ⟨[], 0, 0, 0, 0, 0, 0, 0, 0, [], [], ['a'], []⟩⟩ ∧
    (['a'] : List Char) ≠ ['a', '\n', 'b'] := by decide

/-- C8 (amended): applying the six lines `write_bootimg_config` emits
(page size, the four load addresses, then cmdline — `bootsize` is
omitted, so `img.size` is untouched) to any image state recovers every
serialized field: the numeric fields round-trip unconditionally (for
in-range 32-bit values), and the cmdline round-trips provided it
contains no newline and does not begin with a blank. -/
theorem c8_config_roundtrip (h : BootImgHdr) (img : ImgState)
    (hps : h.page_size < U32) (hka : h.kernel_addr < U32) (hra : h.ramdisk_addr < U32)
    (hsa : h.second_addr < U32) (hta : h.tags_addr < U32)
    (hlen : h.cmdline.length < 512)
    (hnl : ∀ ch ∈ h.cmdline, (ch == '\n') = false)
    (h0 : ∀ ch cs, h.cmdline = ch :: cs → isSpTab ch = false) :
    apply_lines img (write_bootimg_config h)
      = .ok { img with header := { img.header with
          page_size := h.page_size, kernel_addr := h.kernel_addr,
          ramdisk_addr := h.ramdisk_addr, second_addr := h.second_addr,
          tags_addr := h.tags_addr, cmdline := h.cmdline } } ∧
    (write_bootimg_config h).length = 6 := by
  constructor
  · unfold write_bootimg_config
    rw [apply_lines_cons_ok _ _ _ _ (upd_pagesize img h.page_size hps),
      apply_lines_cons_ok _ _ _ _ (upd_kerneladdr _ h.kernel_addr hka),
      apply_lines_cons_ok _ _ _ _ (upd_ramdiskaddr _ h.ramdisk_addr hra),
      apply_lines_cons_ok _ _ _ _ (upd_secondaddr _ h.second_addr hsa),
      apply_lines_cons_ok _ _ _ _ (upd_tagsaddr _ h.tags_addr hta),
      apply_lines_cons_ok _ _ _ _ (upd_cmdline _ h.cmdline hlen hnl h0)]
    rfl
  · rfl

/-- Witness for the amended C8 theorem at a concrete header. -/
theorem c8_witness :
    apply_lines ⟨0, false, ⟨[], 0, 0, 0, 0, 0, 0, 0, 0, [], [], [], []⟩⟩
        (write_bootimg_config ⟨bootMagic, 9, 17, 3, 33, 0, 49, 65, 2048, [], [], ['u'], []⟩)
      = .ok ⟨0, false, ⟨[], 0, 17, 0, 33, 0, 49, 65, 2048, [], [], ['u'], []⟩⟩ ∧
    (write_bootimg_config ⟨bootMagic, 9, 17, 3, 33, 0, 49, 65, 2048, [], [], ['u'], []⟩).length
      = 6 :=
  c8_config_roundtrip ⟨bootMagic, 9, 17, 3, 33, 0, 49, 65, 2048, [], [], ['u'], []⟩
    ⟨0, false, ⟨[], 0, 0, 0, 0, 0, 0, 0, 0, [], [], [], []⟩⟩
    (by decide) (by decide) (by decide) (by decide) (by decide) (by decide)
    (by decide)
    (by
      intro ch cs hc
      injection hc with hch hcs
      subst hch
      decide)

/-- C10 (counterexample): the header padding subtraction is performed
in `size_t` (64-bit on the LP64 hosts this Linux tool targets), not in
32-bit `unsigned`: at `page_size = 16` the padding length is
`2^64 - 592`, not the claimed value modulo `2^32`. -/
theorem c10_counterexample :
    padHeaderLen 16 = 18446744073709551024 ∧
    padHeaderLen 16 ≠ (16 + 4294967296 - 608) % 4294967296 := by decide

/-- C10 (amended): nothing enforces `page_size ≥ sizeof(boot_img_hdr)`:
for every page size strictly between 0 and 608 the header padding
length `psize - sizeof(header)` wraps (in `size_t` arithmetic, modulo
2^64) to a value above `2^64 - 608` instead of being rejected; such a
page size is freely settable through the `pagesize` config key and
passes `check_boot_img_header`. -/
theorem c10_pad_wraparound (p : Nat) (hp : 0 < p) (hlt : p < hdrSize) :
    padHeaderLen p = U64 - (hdrSize - p) ∧
    U64 - hdrSize < padHeaderLen p ∧
    (∀ img : ImgState, update_header_entry img (numLine keyPagesize p)
      = .ok { img with header := { img.header with page_size := p } }) ∧
    check_boot_img_header ⟨bootMagic, 1, 0, 0, 0, 0, 0, 0, p, [], [], [], []⟩ (2 * p) = false := by
  have h608 : hdrSize = 608 := rfl
  have hU64 : U64 = 18446744073709551616 := rfl
  have hU32 : U32 = 4294967296 := rfl
  have hpad : padHeaderLen p = U64 - (hdrSize - p) := by
    unfold padHeaderLen
    rw [Nat.mod_eq_of_lt (by omega)]
    omega
  refine ⟨hpad, by rw [hpad]; omega, ?_, ?_⟩
  · intro img
    exact upd_pagesize img p (by omega)
  · have hc1 : cdiv 1 p = 1 := by
      rw [cdiv_eq 1 p hp (by omega), show 1 + p - 1 = p from by omega, Nat.div_self hp]
    have hc0 : cdiv 0 p = 0 := by
      rw [cdiv_eq 0 p hp (by omega)]
      exact Nat.div_eq_of_lt (by omega)
    have htot : total_size_c p 1 0 0 = 2 * p := by
      unfold total_size_c
      rw [hc1, hc0, show (1 + 1 + 0 + 0) * p = 2 * p from by ring,
        Nat.mod_eq_of_lt (by omega)]
    unfold check_boot_img_header
    rw [if_neg (by
        show ¬(bootMagic ≠ bootMagic)
        simp),
      if_neg (by
        show ¬((1 : Nat) = 0)
        omega),
      if_neg (by
        show ¬(p = 0)
        omega),
      if_neg (by
        show ¬(total_size_c p 1 0 0 > 2 * p)
        rw [htot]
        omega)]

/-- Witness for the amended C10 theorem at page size 16. -/
theorem c10_witness :
    padHeaderLen 16 = U64 - (hdrSize - 16) ∧
    U64 - hdrSize < padHeaderLen 16 ∧
    (∀ img : ImgState, update_header_entry img (numLine keyPagesize 16)
      = .ok { img with header := { img.header with page_size := 16 } }) ∧
    check_boot_img_header ⟨bootMagic, 1, 0, 0, 0, 0, 0, 0, 16, [], [], [], []⟩ (2 * 16) = false :=
  c10_pad_wraparound 16 (by decide) (by decide)
